import Mathlib

/-!
Verification of the peer-evaluation assignment engine and surrounding
teacher/admin operations of the `pes` backend.

The embedding follows the source:
* `POST /send-solutions/:examId` (teacher.routes.ts): the peer-evaluation
  assignment loop, modelled by `assignIdx` / `sendSolutionsCreated` /
  `sendSolutionsRoute`.  The in-place randomized
  `otherStudents.sort(() => 0.5 - Math.random())` is modelled by an arbitrary
  permutation-valued parameter `sh : Nat → List Nat → List Nat` (one shuffle
  per evaluator index); theorems quantify over all such functions that return
  permutations of their input.
* `PUT /exam/:examId`: `updateExam` (JavaScript truthiness of the request
  fields is modelled by `truthyStr` / `truthyNat` / `truthyInt`).
* `DELETE /exam/:examId`: `deleteExamRoute`.
* `assignTeacherToCourse` (teacher.controller.ts): `assignTeacherToCourse`.

Students, courses and exams are identified by natural numbers.  `k` is an
`Int` because the source performs no validation and JavaScript array
`slice(0, Math.min(k, len))` has distinctive semantics for negative `k`
(`sliceCount`).
-/

/-- Status of an evaluation record: `pending` at creation, `completed` once
the evaluator submits marks. -/
inductive EvalStatus where
  | pending
  | completed
deriving DecidableEq, Repr

/-- An evaluation record as created by `Evaluation.create` in
`POST /send-solutions/:examId`. -/
structure EvaluationRecord where
  exam : Nat
  evaluator : Nat
  evaluatee : Nat
  marks : List Nat
  feedback : String
  status : EvalStatus
deriving DecidableEq, Repr

/-- The record inserted for a freshly assigned pair `(e, v)`:
`{exam, evaluator, evaluatee, marks: new Array(numQuestions).fill(0),
feedback: '', status: 'pending'}`. -/
def mkRecord (examId nq e v : Nat) : EvaluationRecord :=
  { exam := examId, evaluator := e, evaluatee := v,
    marks := List.replicate nq 0, feedback := "", status := EvalStatus.pending }

/-- The `(exam, evaluator, evaluatee)` key of a record. -/
def tripleOf (r : EvaluationRecord) : Nat × Nat × Nat :=
  (r.exam, r.evaluator, r.evaluatee)

/-- `Evaluation.findOne({exam, evaluator, evaluatee})` viewed as a boolean
existence check over the record store. -/
def evalExists (examId e v : Nat) (db : List EvaluationRecord) : Bool :=
  db.any fun r => r.exam == examId && r.evaluator == e && r.evaluatee == v

/-- Number of elements produced by the JavaScript expression
`shuffled.slice(0, Math.min(k, len))` on an array of length `len`:
for `k ≥ 0` it is `min k len`; for `k < 0` the slice end is negative and
JavaScript clamps it to `max(len + k, 0)`. -/
def sliceCount (len : Nat) (k : Int) : Nat :=
  if 0 ≤ k then min k.toNat len else ((len : Int) + k).toNat

/-- The inner loop `for (const evaluatee of assignedEvaluatees)`: walk the
selected evaluatees in order, skip a pair already present in the store, and
otherwise create its record (which later iterations then see in the store). -/
def createForEvaluator (examId nq e : Nat) :
    List Nat → List EvaluationRecord → List EvaluationRecord
  | [], _ => []
  | v :: vs, db =>
    if evalExists examId e v db then
      createForEvaluator examId nq e vs db
    else
      mkRecord examId nq e v ::
        createForEvaluator examId nq e vs (mkRecord examId nq e v :: db)

/-- The outer loop `for (let i = 0; i < students.length; i++)`: for evaluator
index `i`, the candidate pool is `students.filter((_, index) => index !== i)`
(i.e. `students.eraseIdx i`), shuffled by `sh i`, and the first
`sliceCount pool.length k` entries are the assigned evaluatees.  Records
created for earlier evaluators are visible to later existence checks. -/
def assignIdx (examId nq : Nat) (k : Int) (students : List Nat)
    (sh : Nat → List Nat → List Nat) :
    List Nat → List EvaluationRecord → List EvaluationRecord
  | [], _ => []
  | i :: rest, db =>
    let e := students.getD i 0
    let pool := students.eraseIdx i
    let assigned := (sh i pool).take (sliceCount pool.length k)
    let created := createForEvaluator examId nq e assigned db
    created ++ assignIdx examId nq k students sh rest (created ++ db)

/-- All evaluation records created by one invocation of the assignment, given
the store contents `db` at the start of the invocation. -/
def sendSolutionsCreated (examId nq : Nat) (k : Int) (students : List Nat)
    (sh : Nat → List Nat → List Nat) (db : List EvaluationRecord) :
    List EvaluationRecord :=
  assignIdx examId nq k students sh (List.range students.length) db

/-- A question of an exam (placeholder questions carry max marks 10). -/
structure Question where
  questionText : String
  maxMarks : Nat
deriving DecidableEq, Repr

/-- The exam document (dates kept as their raw request strings; `k` as the
unvalidated integer it is in the source). -/
structure Exam where
  id : Nat
  course : Nat
  batch : Nat
  title : String
  startTime : String
  endTime : String
  numQuestions : Nat
  k : Int
  createdBy : Nat
  questions : List Question
deriving DecidableEq, Repr

/-- Outcome of `POST /send-solutions/:examId`. -/
inductive SendResult where
  | notFound
  | noSubmissions
  | ok (created : List EvaluationRecord)
deriving DecidableEq, Repr

/-- The records created by a `SendResult` (none on the error paths). -/
def createdOf : SendResult → List EvaluationRecord
  | SendResult.ok l => l
  | _ => []

/-- The route handler for `POST /send-solutions/:examId`: 404 when the exam
lookup fails, the user-facing `'No submissions found for this exam'` message
when no student submitted, and otherwise the assignment loop over the
submitting students. -/
def sendSolutionsRoute (examOpt : Option Exam) (students : List Nat)
    (sh : Nat → List Nat → List Nat) (db : List EvaluationRecord) : SendResult :=
  match examOpt with
  | none => SendResult.notFound
  | some exam =>
    if students.length = 0 then SendResult.noSubmissions
    else SendResult.ok (sendSolutionsCreated exam.id exam.numQuestions exam.k students sh db)

/-- Repeated invocation: run the assignment once per shuffle function in the
list, each run folding its created records into the store seen by the next. -/
def runAll (examId nq : Nat) (k : Int) (students : List Nat) :
    List (Nat → List Nat → List Nat) → List EvaluationRecord → List EvaluationRecord
  | [], db => db
  | sh :: rest, db =>
    runAll examId nq k students rest
      (sendSolutionsCreated examId nq k students sh db ++ db)

/-- The request body of `PUT /exam/:examId`; `none` models an absent
(`undefined`) field. -/
structure ExamUpdate where
  title : Option String
  startTime : Option String
  endTime : Option String
  numQuestions : Option Nat
  k : Option Int
deriving DecidableEq, Repr

/-- JavaScript truthiness of an optional string field: `undefined` and the
empty string are falsy. -/
def truthyStr : Option String → Bool
  | none => false
  | some s => !(s == "")

/-- JavaScript truthiness of an optional natural-number field: `undefined`
and `0` are falsy. -/
def truthyNat : Option Nat → Bool
  | none => false
  | some n => !(n == 0)

/-- JavaScript truthiness of an optional integer field: `undefined` and `0`
are falsy. -/
def truthyInt : Option Int → Bool
  | none => false
  | some i => !(i == 0)

/-- The placeholder questions `Question 1 .. Question n`, each worth 10
marks, rebuilt whenever `numQuestions` changes. -/
def placeholderQuestions (n : Nat) : List Question :=
  (List.range n).map fun i =>
    { questionText := "Question " ++ toString (i + 1), maxMarks := 10 }

/-- `if (title) exam.title = title;` -/
def applyTitle (e : Exam) (o : Option String) : Exam :=
  match o with
  | some t => if t ≠ "" then { e with title := t } else e
  | none => e

/-- `if (startTime) exam.startTime = new Date(startTime);` (the date kept as
its raw string). -/
def applyStartTime (e : Exam) (o : Option String) : Exam :=
  match o with
  | some s => if s ≠ "" then { e with startTime := s } else e
  | none => e

/-- `if (endTime) exam.endTime = new Date(endTime);` -/
def applyEndTime (e : Exam) (o : Option String) : Exam :=
  match o with
  | some s => if s ≠ "" then { e with endTime := s } else e
  | none => e

/-- `if (numQuestions && numQuestions !== exam.numQuestions) { ... }`:
set the new count and rebuild the placeholder questions. -/
def applyNumQuestions (e : Exam) (o : Option Nat) : Exam :=
  match o with
  | some n =>
    if n ≠ 0 ∧ n ≠ e.numQuestions then
      { e with numQuestions := n, questions := placeholderQuestions n }
    else e
  | none => e

/-- `if (k) exam.k = k;` -/
def applyK (e : Exam) (o : Option Int) : Exam :=
  match o with
  | some kv => if kv ≠ 0 then { e with k := kv } else e
  | none => e

/-- The field updates of `PUT /exam/:examId`, in source order: each
`if (field) ...` guard is JavaScript truthiness, and `numQuestions`
additionally requires a changed value before resetting the questions. -/
def updateExam (e : Exam) (b : ExamUpdate) : Exam :=
  applyK
    (applyNumQuestions
      (applyEndTime (applyStartTime (applyTitle e b.title) b.startTime) b.endTime)
      b.numQuestions)
    b.k

/-- A submission document: which student submitted which exam. -/
structure SubmissionRec where
  exam : Nat
  student : Nat
deriving DecidableEq, Repr

/-- The persistent store as seen by the exam routes. -/
structure StoreState where
  exams : List Exam
  submissions : List SubmissionRec
  evaluations : List EvaluationRecord
deriving DecidableEq, Repr

/-- The route handler for `DELETE /exam/:examId`: 404 (`none`) unless an exam
with this id created by this teacher exists; otherwise delete the related
evaluations and submissions, then the exam itself. -/
def deleteExamRoute (s : StoreState) (examId teacherId : Nat) : Option StoreState :=
  match s.exams.find? (fun e => e.id == examId && e.createdBy == teacherId) with
  | none => none
  | some _ =>
    some { exams := s.exams.filter fun e => !(e.id == examId),
           submissions := s.submissions.filter fun x => !(x.exam == examId),
           evaluations := s.evaluations.filter fun x => !(x.exam == examId) }

/-- A teacher document, reduced to its enrolled-course list. -/
structure Teacher where
  enrolledCourses : List Nat
deriving DecidableEq, Repr

/-- `assignTeacherToCourse` (admin controller): push the course onto the
teacher's `enrolledCourses` unless `some`-membership already holds. -/
def assignTeacherToCourse (t : Teacher) (courseId : Nat) : Teacher :=
  if t.enrolledCourses.any (fun id => id == courseId) then t
  else { t with enrolledCourses := t.enrolledCourses ++ [courseId] }

/-- Invariant of the evaluation-record store for one exam: record keys are
unique, and every record of the exam links two distinct members of the
submitter list. -/
def goodDB (examId : Nat) (students : List Nat) (db : List EvaluationRecord) : Prop :=
  (db.map tripleOf).Nodup ∧
  ∀ r ∈ db, r.exam = examId →
    r.evaluator ∈ students ∧ r.evaluatee ∈ students ∧ r.evaluatee ≠ r.evaluator

/-- A resolution of the randomized shuffle that happens to leave the pool in
its original order (a permutation, hence a possible outcome). -/
def shId : Nat → List Nat → List Nat := fun _ l => l

/-- A resolution of the randomized shuffle that happens to reverse the pool
(a permutation, hence a possible outcome). -/
def shRev : Nat → List Nat → List Nat := fun _ l => l.reverse

/-- A concrete exam used to exercise the routes on explicit inputs. -/
def exam0 : Exam :=
  { id := 100, course := 1, batch := 1, title := "T", startTime := "s",
    endTime := "e", numQuestions := 2, k := 1, createdBy := 9,
    questions := placeholderQuestions 2 }

/-- `exam0` with `k = -1`: negative `k` as stored by the unvalidated
`parseInt`/edit paths. -/
def examNegK : Exam := { exam0 with k := -1 }

/-- The store contents after two invocations of the assignment for `exam0`
with `k = 1` and submitters `[0, 1, 2]`, the first run shuffling to the
original order and the second to the reversed order. -/
def twoRunsDB : List EvaluationRecord :=
  runAll 100 2 1 [0, 1, 2] [shId, shRev] []

/-- A concrete store holding `exam0`, a second unrelated exam, and records
for both, used to exercise the delete route on an explicit input. -/
def store0 : StoreState :=
  { exams := [exam0, { exam0 with id := 200 }],
    submissions := [⟨100, 0⟩, ⟨100, 1⟩, ⟨200, 0⟩],
    evaluations := [mkRecord 100 2 0 1, mkRecord 200 2 1 0] }

/-- The store left by deleting `exam0` (id 100) from `store0`. -/
def store0After : StoreState :=
  { exams := [{ exam0 with id := 200 }],
    submissions := [⟨200, 0⟩],
    evaluations := [mkRecord 200 2 1 0] }

/-- An edit body whose every supplied field is falsy: empty title, absent
dates, `numQuestions = 0` and `k = 0`. -/
def body0 : ExamUpdate :=
  { title := some "", startTime := none, endTime := none,
    numQuestions := some 0, k := some 0 }

/-! ## Helper lemmas about the existence check -/

lemma evalExists_cons {x e v : Nat} {r : EvaluationRecord} {db : List EvaluationRecord} :
    evalExists x e v (r :: db) =
      ((r.exam == x && r.evaluator == e && r.evaluatee == v) || evalExists x e v db) := by
  simp [evalExists]

lemma evalExists_append {x e v : Nat} {db₁ db₂ : List EvaluationRecord} :
    evalExists x e v (db₁ ++ db₂) = (evalExists x e v db₁ || evalExists x e v db₂) := by
  simp [evalExists, List.any_append]

lemma evalExists_eq_true_iff {x e v : Nat} {db : List EvaluationRecord} :
    evalExists x e v db = true ↔ (x, e, v) ∈ db.map tripleOf := by
  simp only [evalExists, List.any_eq_true, List.mem_map, tripleOf]
  constructor
  · rintro ⟨r, hr, hcond⟩
    simp only [Bool.and_eq_true, beq_iff_eq] at hcond
    exact ⟨r, hr, by simp [hcond.1.1, hcond.1.2, hcond.2]⟩
  · rintro ⟨r, hr, heq⟩
    refine ⟨r, hr, ?_⟩
    have h1 : r.exam = x := congrArg Prod.fst heq
    have h2 : r.evaluator = e := congrArg (fun p => p.2.1) heq
    have h3 : r.evaluatee = v := congrArg (fun p => p.2.2) heq
    simp [h1, h2, h3]

lemma tripleOf_mkRecord {examId nq e v : Nat} :
    tripleOf (mkRecord examId nq e v) = (examId, e, v) := rfl

/-! ## Helper lemmas about the inner creation loop -/

lemma mem_createForEvaluator {examId nq e : Nat} :
    ∀ {vs : List Nat} {db : List EvaluationRecord} {r : EvaluationRecord},
      r ∈ createForEvaluator examId nq e vs db →
      ∃ v ∈ vs, r = mkRecord examId nq e v ∧ evalExists examId e v db = false
  | [], _, _, h => by simp [createForEvaluator] at h
  | v :: vs, db, r, h => by
    rw [createForEvaluator] at h
    by_cases hex : evalExists examId e v db
    · rw [if_pos hex] at h
      obtain ⟨w, hw, hr, hfalse⟩ := mem_createForEvaluator h
      exact ⟨w, List.mem_cons_of_mem _ hw, hr, hfalse⟩
    · rw [if_neg hex] at h
      rcases List.mem_cons.mp h with h | h
      · exact ⟨v, List.mem_cons_self _ _, h, Bool.eq_false_iff.mpr hex⟩
      · obtain ⟨w, hw, hr, hfalse⟩ := mem_createForEvaluator h
        rw [evalExists_cons, Bool.or_eq_false_iff] at hfalse
        exact ⟨w, List.mem_cons_of_mem _ hw, hr, hfalse.2⟩

lemma length_createForEvaluator_le {examId nq e : Nat} :
    ∀ {vs : List Nat} {db : List EvaluationRecord},
      (createForEvaluator examId nq e vs db).length ≤ vs.length
  | [], _ => by simp [createForEvaluator]
  | v :: vs, db => by
    rw [createForEvaluator]
    by_cases hex : evalExists examId e v db
    · rw [if_pos hex]
      exact Nat.le_succ_of_le length_createForEvaluator_le
    · rw [if_neg hex]
      simpa using Nat.succ_le_succ length_createForEvaluator_le

lemma triples_nodup_createForEvaluator {examId nq e : Nat} :
    ∀ {vs : List Nat} {db : List EvaluationRecord},
      ((createForEvaluator examId nq e vs db).map tripleOf).Nodup
  | [], _ => by simp [createForEvaluator]
  | v :: vs, db => by
    rw [createForEvaluator]
    by_cases hex : evalExists examId e v db
    · rw [if_pos hex]
      exact triples_nodup_createForEvaluator
    · rw [if_neg hex]
      rw [List.map_cons, List.nodup_cons]
      refine ⟨?_, triples_nodup_createForEvaluator⟩
      intro hmem
      rcases List.mem_map.mp hmem with ⟨r, hr, htr⟩
      obtain ⟨w, _, hrw, hfalse⟩ := mem_createForEvaluator hr
      rw [hrw, tripleOf_mkRecord] at htr
      have hvw : w = v := by
        have := congrArg (fun p => p.2.2) htr
        simpa using this
      subst hvw
      rw [evalExists_cons] at hfalse
      simp [mkRecord] at hfalse

/-! ## Helper lemmas about the outer assignment loop -/

lemma mem_assignIdx {examId nq : Nat} {k : Int} {students : List Nat}
    {sh : Nat → List Nat → List Nat} :
    ∀ {idxs : List Nat} {db : List EvaluationRecord} {r : EvaluationRecord},
      r ∈ assignIdx examId nq k students sh idxs db →
      ∃ i ∈ idxs,
        ∃ v ∈ (sh i (students.eraseIdx i)).take
            (sliceCount (students.eraseIdx i).length k),
          r = mkRecord examId nq (students.getD i 0) v ∧
          evalExists examId (students.getD i 0) v db = false
  | [], _, _, h => by simp [assignIdx] at h
  | i :: rest, db, r, h => by
    rw [assignIdx] at h
    rcases List.mem_append.mp h with h | h
    · obtain ⟨v, hv, hr, hfalse⟩ := mem_createForEvaluator h
      exact ⟨i, List.mem_cons_self _ _, v, hv, hr, hfalse⟩
    · obtain ⟨j, hj, v, hv, hr, hfalse⟩ := mem_assignIdx h
      rw [evalExists_append, Bool.or_eq_false_iff] at hfalse
      exact ⟨j, List.mem_cons_of_mem _ hj, v, hv, hr, hfalse.2⟩

lemma not_mem_db_of_mem_assignIdx {examId nq : Nat} {k : Int} {students : List Nat}
    {sh : Nat → List Nat → List Nat} {idxs : List Nat}
    {db : List EvaluationRecord} {r : EvaluationRecord}
    (h : r ∈ assignIdx examId nq k students sh idxs db) :
    tripleOf r ∉ db.map tripleOf := by
  obtain ⟨i, _, v, _, hr, hfalse⟩ := mem_assignIdx h
  intro hmem
  rw [hr, tripleOf_mkRecord] at hmem
  rw [← evalExists_eq_true_iff] at hmem
  rw [hmem] at hfalse
  exact Bool.true_eq_false ▸ hfalse

lemma triples_nodup_assignIdx {examId nq : Nat} {k : Int} {students : List Nat}
    {sh : Nat → List Nat → List Nat} :
    ∀ {idxs : List Nat} {db : List EvaluationRecord},
      ((assignIdx examId nq k students sh idxs db).map tripleOf).Nodup
  | [], _ => by simp [assignIdx]
  | i :: rest, db => by
    rw [assignIdx, List.map_append, List.nodup_append]
    refine ⟨triples_nodup_createForEvaluator, triples_nodup_assignIdx, ?_⟩
    intro t ht ht'
    rcases List.mem_map.mp ht' with ⟨r, hr, htr⟩
    have hnot := not_mem_db_of_mem_assignIdx hr
    rw [htr] at hnot
    exact hnot (by rw [List.map_append]; exact List.mem_append_left _ ht)

/-! ## List facts about the candidate pool -/

lemma getD_mem_of_lt {l : List Nat} {i : Nat} (h : i < l.length) (d : Nat) :
    l.getD i d ∈ l := by
  rw [List.getD_eq_getElem l d h]
  exact List.getElem_mem h

lemma nodup_getD_not_mem_eraseIdx :
    ∀ {l : List Nat} {i : Nat}, l.Nodup → i < l.length →
      l.getD i 0 ∉ l.eraseIdx i
  | [], i, _, hi => by simp at hi
  | a :: l, 0, hnd, _ => by
    simp only [List.getD_cons_zero, List.eraseIdx_cons_zero]
    exact (List.nodup_cons.mp hnd).1
  | a :: l, i + 1, hnd, hi => by
    simp only [List.getD_cons_succ, List.eraseIdx_cons_succ, List.mem_cons]
    rintro (h | h)
    · have hmem : l.getD i 0 ∈ l := getD_mem_of_lt (by simpa using hi) 0
      rw [h] at hmem
      exact (List.nodup_cons.mp hnd).1 hmem
    · exact nodup_getD_not_mem_eraseIdx (List.nodup_cons.mp hnd).2 (by simpa using hi) h

/-- Shape of every record created by a single invocation of the assignment
(the candidate set of each evaluator excludes the evaluator itself when the
submitters are distinct and the shuffle permutes its input). -/
lemma shape_sendSolutionsCreated {examId nq : Nat} {k : Int} {students : List Nat}
    {sh : Nat → List Nat → List Nat} {db : List EvaluationRecord}
    {r : EvaluationRecord}
    (hnd : students.Nodup) (hsh : ∀ i l, (sh i l).Perm l)
    (h : r ∈ sendSolutionsCreated examId nq k students sh db) :
    r.exam = examId ∧ r.evaluator ∈ students ∧ r.evaluatee ∈ students ∧
      r.evaluatee ≠ r.evaluator ∧ r.marks = List.replicate nq 0 ∧
      r.feedback = "" ∧ r.status = EvalStatus.pending := by
  obtain ⟨i, hi, v, hv, hr, -⟩ := mem_assignIdx h
  have hilt : i < students.length := List.mem_range.mp hi
  have hvpool : v ∈ students.eraseIdx i :=
    ((hsh i (students.eraseIdx i)).mem_iff).mp (List.mem_of_mem_take hv)
  have hvs : v ∈ students := List.eraseIdx_subset _ _ hvpool
  have hvne : v ≠ students.getD i 0 := by
    intro hvv
    exact nodup_getD_not_mem_eraseIdx hnd hilt (hvv ▸ hvpool)
  subst hr
  exact ⟨rfl, getD_mem_of_lt hilt 0, hvs, hvne, rfl, rfl, rfl⟩

lemma nodup_getD_inj {students : List Nat} {i j : Nat} (hnd : students.Nodup)
    (hi : i < students.length) (hj : j < students.length)
    (h : students.getD i 0 = students.getD j 0) : i = j := by
  rw [List.getD_eq_getElem _ _ hi, List.getD_eq_getElem _ _ hj] at h
  exact hnd.getElem_inj_iff.mp h

/-- Per-invocation bound on the records created for one evaluator: one index
contributes at most the sliced length, all other indices contribute records
with a different evaluator. -/
lemma length_filter_evaluator_assignIdx {examId nq e : Nat} {k : Int}
    {students : List Nat} {sh : Nat → List Nat → List Nat}
    (hnd : students.Nodup) (hsh : ∀ i l, (sh i l).Perm l) :
    ∀ {idxs : List Nat} {db : List EvaluationRecord}, idxs.Nodup →
      (∀ i ∈ idxs, i < students.length) →
      ((assignIdx examId nq k students sh idxs db).filter
          (fun r => r.evaluator == e)).length ≤
        sliceCount (students.length - 1) k
  | [], _, _, _ => by simp [assignIdx]
  | i :: rest, db, hidx, hlt => by
    have hilt : i < students.length := hlt i (List.mem_cons_self _ _)
    rw [assignIdx, List.filter_append, List.length_append]
    by_cases he : students.getD i 0 = e
    · have hcreated :
          ((createForEvaluator examId nq (students.getD i 0)
              ((sh i (students.eraseIdx i)).take
                (sliceCount (students.eraseIdx i).length k)) db).filter
            (fun r => r.evaluator == e)).length ≤
          sliceCount (students.length - 1) k := by
        refine le_trans (List.length_filter_le _ _) ?_
        refine le_trans length_createForEvaluator_le ?_
        rw [List.length_take, (hsh i (students.eraseIdx i)).length_eq,
          List.length_eraseIdx, if_pos hilt]
        exact min_le_left _ _
      have hrest :
          (assignIdx examId nq k students sh rest
              ((createForEvaluator examId nq (students.getD i 0)
                ((sh i (students.eraseIdx i)).take
                  (sliceCount (students.eraseIdx i).length k)) db) ++ db)).filter
            (fun r => r.evaluator == e) = [] := by
        rw [List.filter_eq_nil_iff]
        intro r hr hbeq
        obtain ⟨j, hj, v, hv, hrr, -⟩ := mem_assignIdx hr
        rw [beq_iff_eq] at hbeq
        have hje : students.getD j 0 = e := by rw [hrr] at hbeq; exact hbeq
        have hij : j = i :=
          nodup_getD_inj hnd (hlt j (List.mem_cons_of_mem _ hj)) hilt (by rw [hje, he])
        exact (List.nodup_cons.mp hidx).1 (hij ▸ hj)
      rw [hrest]
      simpa using hcreated
    · have hcreated :
          (createForEvaluator examId nq (students.getD i 0)
              ((sh i (students.eraseIdx i)).take
                (sliceCount (students.eraseIdx i).length k)) db).filter
            (fun r => r.evaluator == e) = [] := by
        rw [List.filter_eq_nil_iff]
        intro r hr hbeq
        obtain ⟨v, hv, hrr, -⟩ := mem_createForEvaluator hr
        rw [beq_iff_eq] at hbeq
        rw [hrr] at hbeq
        exact he hbeq
      rw [hcreated]
      simpa using
        length_filter_evaluator_assignIdx hnd hsh (List.nodup_cons.mp hidx).2
          (fun j hj => hlt j (List.mem_cons_of_mem _ hj))

/-! ## The store invariant across repeated invocations -/

lemma goodDB_nil {examId : Nat} {students : List Nat} : goodDB examId students [] :=
  ⟨List.nodup_nil, by simp⟩

lemma goodDB_append_run {examId nq : Nat} {k : Int} {students : List Nat}
    {sh : Nat → List Nat → List Nat} {db : List EvaluationRecord}
    (hnd : students.Nodup) (hsh : ∀ i l, (sh i l).Perm l)
    (hdb : goodDB examId students db) :
    goodDB examId students (sendSolutionsCreated examId nq k students sh db ++ db) := by
  constructor
  · rw [List.map_append, List.nodup_append]
    refine ⟨triples_nodup_assignIdx, hdb.1, ?_⟩
    intro t ht ht'
    rcases List.mem_map.mp ht with ⟨r, hr, htr⟩
    exact not_mem_db_of_mem_assignIdx hr (htr ▸ ht')
  · intro r hr hex
    rcases List.mem_append.mp hr with hr | hr
    · obtain ⟨-, h1, h2, h3, -, -, -⟩ := shape_sendSolutionsCreated hnd hsh hr
      exact ⟨h1, h2, h3⟩
    · exact hdb.2 r hr hex

lemma goodDB_runAll {examId nq : Nat} {k : Int} {students : List Nat}
    (hnd : students.Nodup) :
    ∀ {shuffles : List (Nat → List Nat → List Nat)} {db : List EvaluationRecord},
      (∀ sh ∈ shuffles, ∀ i l, (sh i l).Perm l) → goodDB examId students db →
      goodDB examId students (runAll examId nq k students shuffles db)
  | [], db, _, hdb => hdb
  | sh :: rest, db, hshs, hdb => by
    rw [runAll]
    exact goodDB_runAll hnd
      (fun s hs => hshs s (List.mem_cons_of_mem _ hs))
      (goodDB_append_run hnd (hshs sh (List.mem_cons_self _ _)) hdb)

/-- In a store satisfying the invariant, an evaluator holds at most
`|students| - 1` records for the exam: the evaluatees are pairwise distinct
members of the pool excluding the evaluator. -/
lemma length_filter_le_of_goodDB {examId e : Nat} {students : List Nat}
    {db : List EvaluationRecord}
    (hdb : goodDB examId students db) :
    ((db.filter fun r => r.exam == examId && r.evaluator == e).length ≤
      students.length - 1) := by
  set l := db.filter fun r => r.exam == examId && r.evaluator == e with hl
  have hcond : ∀ r ∈ l, r.exam = examId ∧ r.evaluator = e := by
    intro r hr
    have := (List.mem_filter.mp hr).2
    simp only [Bool.and_eq_true, beq_iff_eq] at this
    exact this
  by_cases hes : e ∈ students
  · have hsubl : (l.map tripleOf).Sublist (db.map tripleOf) :=
      (List.filter_sublist db).map tripleOf
    have htripnd : (l.map tripleOf).Nodup := hdb.1.sublist hsubl
    have hmapeq : l.map tripleOf = (l.map fun r => r.evaluatee).map fun v => (examId, e, v) := by
      rw [List.map_map]
      refine List.map_congr_left ?_
      intro r hr
      simp only [Function.comp_apply, tripleOf, (hcond r hr).1, (hcond r hr).2]
    have hvnd : (l.map fun r => r.evaluatee).Nodup := by
      rw [hmapeq] at htripnd
      exact htripnd.of_map _
    have hvsub : (l.map fun r => r.evaluatee) ⊆ students.erase e := by
      intro v hv
      rcases List.mem_map.mp hv with ⟨r, hr, hveq⟩
      have hrdb : r ∈ db := (List.mem_filter.mp hr).1
      obtain ⟨-, h2, h3⟩ := hdb.2 r hrdb (hcond r hr).1
      subst hveq
      have hne : r.evaluatee ≠ e := (hcond r hr).2 ▸ h3
      exact (List.mem_erase_of_ne hne).mpr h2
    have hlen : (l.map fun r => r.evaluatee).length ≤ (students.erase e).length :=
      (List.subperm_of_subset hvnd hvsub).length_le
    rw [List.length_map] at hlen
    rw [List.length_erase, if_pos hes] at hlen
    exact hlen
  · have : l = [] := by
      rw [hl, List.filter_eq_nil_iff]
      intro r hr hb
      simp only [Bool.and_eq_true, beq_iff_eq] at hb
      obtain ⟨h1, -, -⟩ := hdb.2 r hr hb.1
      exact hes (hb.2 ▸ h1)
    rw [this]
    simp

/-! ## Frame lemmas for the exam-edit steps -/

lemma applyTitle_frame (e : Exam) (o : Option String) :
    (applyTitle e o).startTime = e.startTime ∧ (applyTitle e o).endTime = e.endTime ∧
    (applyTitle e o).numQuestions = e.numQuestions ∧
    (applyTitle e o).questions = e.questions ∧ (applyTitle e o).k = e.k := by
  cases o with
  | none => exact ⟨rfl, rfl, rfl, rfl, rfl⟩
  | some t =>
    by_cases h : t ≠ "" <;> simp [applyTitle, h]

lemma applyTitle_falsy (e : Exam) (o : Option String) (h : truthyStr o = false) :
    applyTitle e o = e := by
  cases o with
  | none => rfl
  | some t =>
    simp only [truthyStr, Bool.not_eq_false'] at h
    rw [beq_iff_eq] at h
    simp [applyTitle, h]

lemma applyStartTime_frame (e : Exam) (o : Option String) :
    (applyStartTime e o).title = e.title ∧ (applyStartTime e o).endTime = e.endTime ∧
    (applyStartTime e o).numQuestions = e.numQuestions ∧
    (applyStartTime e o).questions = e.questions ∧ (applyStartTime e o).k = e.k := by
  cases o with
  | none => exact ⟨rfl, rfl, rfl, rfl, rfl⟩
  | some s =>
    by_cases h : s ≠ "" <;> simp [applyStartTime, h]

lemma applyStartTime_falsy (e : Exam) (o : Option String) (h : truthyStr o = false) :
    applyStartTime e o = e := by
  cases o with
  | none => rfl
  | some s =>
    simp only [truthyStr, Bool.not_eq_false'] at h
    rw [beq_iff_eq] at h
    simp [applyStartTime, h]

lemma applyEndTime_frame (e : Exam) (o : Option String) :
    (applyEndTime e o).title = e.title ∧ (applyEndTime e o).startTime = e.startTime ∧
    (applyEndTime e o).numQuestions = e.numQuestions ∧
    (applyEndTime e o).questions = e.questions ∧ (applyEndTime e o).k = e.k := by
  cases o with
  | none => exact ⟨rfl, rfl, rfl, rfl, rfl⟩
  | some s =>
    by_cases h : s ≠ "" <;> simp [applyEndTime, h]

lemma applyEndTime_falsy (e : Exam) (o : Option String) (h : truthyStr o = false) :
    applyEndTime e o = e := by
  cases o with
  | none => rfl
  | some s =>
    simp only [truthyStr, Bool.not_eq_false'] at h
    rw [beq_iff_eq] at h
    simp [applyEndTime, h]

lemma applyNumQuestions_frame (e : Exam) (o : Option Nat) :
    (applyNumQuestions e o).title = e.title ∧
    (applyNumQuestions e o).startTime = e.startTime ∧
    (applyNumQuestions e o).endTime = e.endTime ∧ (applyNumQuestions e o).k = e.k := by
  cases o with
  | none => exact ⟨rfl, rfl, rfl, rfl⟩
  | some n =>
    by_cases h : n ≠ 0 ∧ n ≠ e.numQuestions <;> simp [applyNumQuestions, h]

lemma applyNumQuestions_falsy (e : Exam) (o : Option Nat) (h : truthyNat o = false) :
    applyNumQuestions e o = e := by
  cases o with
  | none => rfl
  | some n =>
    simp only [truthyNat, Bool.not_eq_false'] at h
    rw [beq_iff_eq] at h
    simp [applyNumQuestions, h]

lemma applyK_frame (e : Exam) (o : Option Int) :
    (applyK e o).title = e.title ∧ (applyK e o).startTime = e.startTime ∧
    (applyK e o).endTime = e.endTime ∧ (applyK e o).numQuestions = e.numQuestions ∧
    (applyK e o).questions = e.questions := by
  cases o with
  | none => exact ⟨rfl, rfl, rfl, rfl, rfl⟩
  | some kv =>
    by_cases h : kv ≠ 0 <;> simp [applyK, h]

lemma applyK_falsy (e : Exam) (o : Option Int) (h : truthyInt o = false) :
    applyK e o = e := by
  cases o with
  | none => rfl
  | some kv =>
    simp only [truthyInt, Bool.not_eq_false'] at h
    rw [beq_iff_eq] at h
    simp [applyK, h]

/-! ## Claim theorems -/

/-- C1: For every exam, every set of submitters, and every `k` (validated or
not), no record produced by the send-solutions assignment has its evaluator
equal to its evaluatee, for any outcome of the randomized shuffles. -/
theorem C1_no_self_evaluation (examId nq : Nat) (k : Int) (students : List Nat)
    (sh : Nat → List Nat → List Nat) (db : List EvaluationRecord)
    (hnd : students.Nodup) (hsh : ∀ i l, (sh i l).Perm l)
    (r : EvaluationRecord) (hr : r ∈ sendSolutionsCreated examId nq k students sh db) :
    r.evaluator ≠ r.evaluatee := by
  obtain ⟨-, -, -, hne, -, -, -⟩ := shape_sendSolutionsCreated hnd hsh hr
  exact fun h => hne h.symm

/-- Witness for C1 at a concrete input. -/
theorem C1_no_self_evaluation_witness :
    ([0, 1, 2] : List Nat).Nodup ∧
    mkRecord 100 2 0 1 ∈ sendSolutionsCreated 100 2 1 [0, 1, 2] shId [] ∧
    (mkRecord 100 2 0 1).evaluator ≠ (mkRecord 100 2 0 1).evaluatee :=
  ⟨by decide, by decide,
    C1_no_self_evaluation 100 2 1 [0, 1, 2] shId [] (by decide)
      (fun i l => List.Perm.refl l) (mkRecord 100 2 0 1) (by decide)⟩

/-- C2: in a single invocation with `k ≥ 0` and `S` distinct submitters,
every evaluator is assigned at most `min(k, S-1)` evaluatees, for any outcome
of the randomized shuffles. -/
theorem C2_at_most_min_k_evaluatees (examId nq : Nat) (k : Int) (students : List Nat)
    (sh : Nat → List Nat → List Nat) (db : List EvaluationRecord) (e : Nat)
    (hk : 0 ≤ k) (hnd : students.Nodup) (hsh : ∀ i l, (sh i l).Perm l) :
    ((sendSolutionsCreated examId nq k students sh db).filter
        (fun r => r.evaluator == e)).length ≤
      min k.toNat (students.length - 1) := by
  have h := @length_filter_evaluator_assignIdx examId nq e k students sh hnd hsh
    (List.range students.length) db (List.nodup_range _)
    (fun i hi => List.mem_range.mp hi)
  rwa [sliceCount, if_pos hk] at h

/-- Witness for C2 at a concrete input. -/
theorem C2_at_most_min_k_evaluatees_witness :
    (0 : Int) ≤ 2 ∧ ([0, 1, 2] : List Nat).Nodup ∧
    ((sendSolutionsCreated 100 2 2 [0, 1, 2] shId []).filter
        (fun r => r.evaluator == 0)).length ≤
      min (Int.toNat 2) ([0, 1, 2].length - 1) :=
  ⟨by decide, by decide,
    C2_at_most_min_k_evaluatees 100 2 2 [0, 1, 2] shId [] 0 (by decide) (by decide)
      (fun i l => List.Perm.refl l)⟩

/-- C3: a pair already present in the store for the same exam is never
emitted again: the key triple of every created record is absent from the
store the invocation started from. -/
theorem C3_no_duplicate_of_existing (examId nq : Nat) (k : Int) (students : List Nat)
    (sh : Nat → List Nat → List Nat) (db : List EvaluationRecord)
    (r : EvaluationRecord) (hr : r ∈ sendSolutionsCreated examId nq k students sh db) :
    tripleOf r ∉ db.map tripleOf :=
  not_mem_db_of_mem_assignIdx hr

/-- Witness for C3 at a concrete input: with `(0, 1)` already stored, the
re-run creates `(0, 2)` and indeed never `(0, 1)`. -/
theorem C3_no_duplicate_of_existing_witness :
    mkRecord 100 2 0 2 ∈
      sendSolutionsCreated 100 2 2 [0, 1, 2] shId [mkRecord 100 2 0 1] ∧
    tripleOf (mkRecord 100 2 0 2) ∉ List.map tripleOf [mkRecord 100 2 0 1] :=
  ⟨by decide,
    C3_no_duplicate_of_existing 100 2 2 [0, 1, 2] shId [mkRecord 100 2 0 1]
      (mkRecord 100 2 0 2) (by decide)⟩

/-- C6: every record created by the assignment is seeded with a zero mark
vector of length exactly the exam's question count, empty feedback, and
status `pending`. -/
theorem C6_record_seed (examId nq : Nat) (k : Int) (students : List Nat)
    (sh : Nat → List Nat → List Nat) (db : List EvaluationRecord)
    (r : EvaluationRecord) (hr : r ∈ sendSolutionsCreated examId nq k students sh db) :
    r.marks = List.replicate nq 0 ∧ r.marks.length = nq ∧
    r.feedback = "" ∧ r.status = EvalStatus.pending := by
  obtain ⟨i, -, v, -, hrr, -⟩ := mem_assignIdx hr
  subst hrr
  exact ⟨rfl, List.length_replicate nq 0, rfl, rfl⟩

/-- Witness for C6 at a concrete input. -/
theorem C6_record_seed_witness :
    mkRecord 100 2 0 1 ∈ sendSolutionsCreated 100 2 1 [0, 1, 2] shId [] ∧
    ((mkRecord 100 2 0 1).marks = List.replicate 2 0 ∧
      (mkRecord 100 2 0 1).marks.length = 2 ∧
      (mkRecord 100 2 0 1).feedback = "" ∧
      (mkRecord 100 2 0 1).status = EvalStatus.pending) :=
  ⟨by decide,
    C6_record_seed 100 2 1 [0, 1, 2] shId [] (mkRecord 100 2 0 1) (by decide)⟩

lemma sendSolutionsCreated_singleton {examId nq : Nat} {k : Int} {s : Nat}
    {sh : Nat → List Nat → List Nat} {db : List EvaluationRecord}
    (hnil : sh 0 [] = []) :
    sendSolutionsCreated examId nq k [s] sh db = [] := by
  show assignIdx examId nq k [s] sh (List.range 1) db = []
  have h1 : List.range 1 = [0] := rfl
  rw [h1, assignIdx]
  show createForEvaluator examId nq ([s].getD 0 0)
      ((sh 0 ([s].eraseIdx 0)).take (sliceCount ([s].eraseIdx 0).length k)) db ++
      assignIdx examId nq k [s] sh [] _ = []
  rw [show ([s].eraseIdx 0) = ([] : List Nat) from rfl, hnil]
  simp [assignIdx, createForEvaluator]

/-- C7: with zero or one submitter the assignment creates no evaluation
records, and zero submitters is answered with the user-facing
no-submissions message, not an internal error. -/
theorem C7_small_submitter_set (exam : Exam) (students : List Nat)
    (sh : Nat → List Nat → List Nat) (db : List EvaluationRecord)
    (hsh : ∀ i l, (sh i l).Perm l) (hle : students.length ≤ 1) :
    createdOf (sendSolutionsRoute (some exam) students sh db) = [] ∧
    (students = [] →
      sendSolutionsRoute (some exam) students sh db = SendResult.noSubmissions) := by
  match students, hle with
  | [], _ => exact ⟨rfl, fun _ => rfl⟩
  | [s], _ =>
    refine ⟨?_, by intro h; cases h⟩
    have hnil : sh 0 [] = [] := (hsh 0 []).eq_nil
    show createdOf (if ([s].length = 0) then SendResult.noSubmissions
      else SendResult.ok (sendSolutionsCreated exam.id exam.numQuestions exam.k [s] sh db)) = []
    rw [if_neg (by simp), sendSolutionsCreated_singleton hnil]
    rfl

/-- Witness for C7 at a concrete input. -/
theorem C7_small_submitter_set_witness :
    ([7] : List Nat).length ≤ 1 ∧
    (createdOf (sendSolutionsRoute (some exam0) [7] shId []) = [] ∧
      (([7] : List Nat) = [] →
        sendSolutionsRoute (some exam0) [7] shId [] = SendResult.noSubmissions)) :=
  ⟨by decide, C7_small_submitter_set exam0 [7] shId [] (fun i l => List.Perm.refl l) (by decide)⟩

/-- C4 counterexample: with `k = -1` (negative) and three submitters, the
send-solutions operation does not reject the input — it runs to completion
and creates three evaluation records (one per evaluator, by JavaScript
negative-slice-end semantics). -/
theorem C4_counterexample_negative_k_not_rejected :
    examNegK.k < 0 ∧
    sendSolutionsRoute (some examNegK) [0, 1, 2] shId [] =
      SendResult.ok [mkRecord 100 2 0 1, mkRecord 100 2 1 0, mkRecord 100 2 2 0] := by
  decide

/-- C4 (amended): the operation performs no validation of `k`: a negative `k`
is neither rejected nor clamped to zero; the loop still runs and, with `S`
submitters, each evaluator is assigned at most `max(S - 1 + k, 0)` evaluatees
(JavaScript `slice` with a negative end index). -/
theorem C4_amended_negative_k_unvalidated (exam : Exam) (students : List Nat)
    (sh : Nat → List Nat → List Nat) (db : List EvaluationRecord) (e : Nat)
    (hk : exam.k < 0) (hne : students ≠ [])
    (hnd : students.Nodup) (hsh : ∀ i l, (sh i l).Perm l) :
    sendSolutionsRoute (some exam) students sh db =
      SendResult.ok (sendSolutionsCreated exam.id exam.numQuestions exam.k students sh db) ∧
    ((sendSolutionsCreated exam.id exam.numQuestions exam.k students sh db).filter
        (fun r => r.evaluator == e)).length ≤
      (((students.length : Int) - 1) + exam.k).toNat := by
  constructor
  · show (if students.length = 0 then SendResult.noSubmissions
      else SendResult.ok _) = _
    rw [if_neg (by simpa using fun h => hne (List.length_eq_zero.mp h))]
  · have h := @length_filter_evaluator_assignIdx exam.id exam.numQuestions e exam.k
      students sh hnd hsh (List.range students.length) db (List.nodup_range _)
      (fun i hi => List.mem_range.mp hi)
    rw [sliceCount, if_neg (not_le.mpr hk)] at h
    have hS : 1 ≤ students.length := List.length_pos.mpr hne
    unfold sendSolutionsCreated
    omega

/-- Witness for the amended C4 at a concrete input. -/
theorem C4_amended_negative_k_unvalidated_witness :
    examNegK.k < 0 ∧ ([0, 1, 2] : List Nat) ≠ [] ∧
    (sendSolutionsRoute (some examNegK) [0, 1, 2] shId [] =
        SendResult.ok (sendSolutionsCreated examNegK.id examNegK.numQuestions examNegK.k
          [0, 1, 2] shId []) ∧
      ((sendSolutionsCreated examNegK.id examNegK.numQuestions examNegK.k
          [0, 1, 2] shId []).filter (fun r => r.evaluator == 0)).length ≤
        (((([0, 1, 2] : List Nat).length : Int) - 1) + examNegK.k).toNat) :=
  ⟨by decide, by decide,
    C4_amended_negative_k_unvalidated examNegK [0, 1, 2] shId [] 0 (by decide)
      (by decide) (by decide) (fun i l => List.Perm.refl l)⟩

/-- C5 counterexample: with `k = 1` and submitters `{0, 1, 2}`, two
invocations whose random shuffles resolve differently (original order, then
reversed order) leave evaluator `0` with two evaluatees in total — more than
`k` — because only exact duplicate pairs are suppressed. -/
theorem C5_counterexample_total_exceeds_k :
    exam0.k = 1 ∧
    ¬ ((twoRunsDB.filter fun r => r.exam == 100 && r.evaluator == 0).length ≤
        Int.toNat exam0.k) := by
  decide

/-- C5 (amended): across any number of repeated invocations starting from an
empty store, an evaluator never holds a duplicate pair, so its total number
of evaluatees is bounded by the number of other submitters `S - 1` — but not
by `k`. -/
theorem C5_amended_total_bounded_by_pool (examId nq : Nat) (k : Int)
    (students : List Nat) (shuffles : List (Nat → List Nat → List Nat)) (e : Nat)
    (hnd : students.Nodup)
    (hshs : ∀ sh ∈ shuffles, ∀ i l, (sh i l).Perm l) :
    ((runAll examId nq k students shuffles []).filter
        fun r => r.exam == examId && r.evaluator == e).length ≤
      students.length - 1 :=
  length_filter_le_of_goodDB (goodDB_runAll hnd hshs goodDB_nil)

/-- Witness for the amended C5 at a concrete input (the two runs of the
counterexample: evaluator `0` holds `2 = S - 1` records, within the bound). -/
theorem C5_amended_total_bounded_by_pool_witness :
    ([0, 1, 2] : List Nat).Nodup ∧
    ((runAll 100 2 1 [0, 1, 2] [shId, shRev] []).filter
        fun r => r.exam == 100 && r.evaluator == 0).length ≤
      ([0, 1, 2] : List Nat).length - 1 :=
  ⟨by decide,
    C5_amended_total_bounded_by_pool 100 2 1 [0, 1, 2] [shId, shRev] 0 (by decide)
      (by
        intro s hs i l
        rcases List.mem_cons.mp hs with h | h
        · subst h; exact List.Perm.refl l
        · rcases List.mem_cons.mp h with h | h
          · subst h; exact List.reverse_perm l
          · exact absurd h (List.not_mem_nil s))⟩

lemma updateExam_title_falsy (e : Exam) (b : ExamUpdate)
    (h : truthyStr b.title = false) : (updateExam e b).title = e.title := by
  unfold updateExam
  rw [(applyK_frame _ _).1, (applyNumQuestions_frame _ _).1, (applyEndTime_frame _ _).1,
    (applyStartTime_frame _ _).1, applyTitle_falsy _ _ h]

lemma updateExam_startTime_falsy (e : Exam) (b : ExamUpdate)
    (h : truthyStr b.startTime = false) : (updateExam e b).startTime = e.startTime := by
  unfold updateExam
  rw [(applyK_frame _ _).2.1, (applyNumQuestions_frame _ _).2.1,
    (applyEndTime_frame _ _).2.1, applyStartTime_falsy _ _ h, (applyTitle_frame _ _).1]

lemma updateExam_endTime_falsy (e : Exam) (b : ExamUpdate)
    (h : truthyStr b.endTime = false) : (updateExam e b).endTime = e.endTime := by
  unfold updateExam
  rw [(applyK_frame _ _).2.2.1, (applyNumQuestions_frame _ _).2.2.1,
    applyEndTime_falsy _ _ h, (applyStartTime_frame _ _).2.1, (applyTitle_frame _ _).2.1]

lemma updateExam_numQuestions_falsy (e : Exam) (b : ExamUpdate)
    (h : truthyNat b.numQuestions = false) :
    (updateExam e b).numQuestions = e.numQuestions := by
  unfold updateExam
  rw [(applyK_frame _ _).2.2.2.1, applyNumQuestions_falsy _ _ h,
    (applyEndTime_frame _ _).2.2.1, (applyStartTime_frame _ _).2.2.1,
    (applyTitle_frame _ _).2.2.1]

lemma updateExam_questions_falsy (e : Exam) (b : ExamUpdate)
    (h : truthyNat b.numQuestions = false) :
    (updateExam e b).questions = e.questions := by
  unfold updateExam
  rw [(applyK_frame _ _).2.2.2.2, applyNumQuestions_falsy _ _ h,
    (applyEndTime_frame _ _).2.2.2.1, (applyStartTime_frame _ _).2.2.2.1,
    (applyTitle_frame _ _).2.2.2.1]

lemma updateExam_k_falsy (e : Exam) (b : ExamUpdate)
    (h : truthyInt b.k = false) : (updateExam e b).k = e.k := by
  unfold updateExam
  rw [applyK_falsy _ _ h, (applyNumQuestions_frame _ _).2.2.2,
    (applyEndTime_frame _ _).2.2.2.2, (applyStartTime_frame _ _).2.2.2.2,
    (applyTitle_frame _ _).2.2.2.2]

/-- C9: in the exam-edit operation, any field whose supplied value is falsy
(absent, empty string, or zero — in particular `k = 0` or
`numQuestions = 0`) leaves the corresponding exam field unchanged. -/
theorem C9_falsy_fields_unchanged (e : Exam) (b : ExamUpdate) :
    (truthyStr b.title = false → (updateExam e b).title = e.title) ∧
    (truthyStr b.startTime = false → (updateExam e b).startTime = e.startTime) ∧
    (truthyStr b.endTime = false → (updateExam e b).endTime = e.endTime) ∧
    (truthyNat b.numQuestions = false →
      (updateExam e b).numQuestions = e.numQuestions ∧
      (updateExam e b).questions = e.questions) ∧
    (truthyInt b.k = false → (updateExam e b).k = e.k) :=
  ⟨updateExam_title_falsy e b, updateExam_startTime_falsy e b,
    updateExam_endTime_falsy e b,
    fun h => ⟨updateExam_numQuestions_falsy e b h, updateExam_questions_falsy e b h⟩,
    updateExam_k_falsy e b⟩

/-- Witness for C9 at a concrete input: an edit body supplying an empty
title, `numQuestions = 0` and `k = 0` changes none of those fields. -/
theorem C9_falsy_fields_unchanged_witness :
    truthyStr body0.title = false ∧ truthyNat body0.numQuestions = false ∧
    truthyInt body0.k = false ∧
    (updateExam exam0 body0).title = exam0.title ∧
    (updateExam exam0 body0).numQuestions = exam0.numQuestions ∧
    (updateExam exam0 body0).questions = exam0.questions ∧
    (updateExam exam0 body0).k = exam0.k :=
  ⟨by decide, by decide, by decide,
    (C9_falsy_fields_unchanged exam0 body0).1 (by decide),
    ((C9_falsy_fields_unchanged exam0 body0).2.2.2.1 (by decide)).1,
    ((C9_falsy_fields_unchanged exam0 body0).2.2.2.1 (by decide)).2,
    (C9_falsy_fields_unchanged exam0 body0).2.2.2.2 (by decide)⟩

/-- C8: after a successful exam deletion, no evaluation record, submission
record, or exam document referencing that exam id remains in the store. -/
theorem C8_delete_exam_cascades (s : StoreState) (examId teacherId : Nat)
    (t : StoreState) (h : deleteExamRoute s examId teacherId = some t) :
    t.evaluations.filter (fun x => x.exam == examId) = [] ∧
    t.submissions.filter (fun x => x.exam == examId) = [] ∧
    t.exams.filter (fun x => x.id == examId) = [] := by
  unfold deleteExamRoute at h
  cases hf : s.exams.find? (fun e => e.id == examId && e.createdBy == teacherId) with
  | none => rw [hf] at h; cases h
  | some ex =>
    rw [hf] at h
    injection h with h
    subst h
    refine ⟨?_, ?_, ?_⟩
    · rw [List.filter_eq_nil_iff]
      intro x hx hbeq
      have hneg := (List.mem_filter.mp hx).2
      rw [hbeq] at hneg
      simp at hneg
    · rw [List.filter_eq_nil_iff]
      intro x hx hbeq
      have hneg := (List.mem_filter.mp hx).2
      rw [hbeq] at hneg
      simp at hneg
    · rw [List.filter_eq_nil_iff]
      intro x hx hbeq
      have hneg := (List.mem_filter.mp hx).2
      rw [hbeq] at hneg
      simp at hneg

/-- Witness for C8 at a concrete input: deleting exam 100 from `store0`
leaves `store0After`, which holds no record for exam 100. -/
theorem C8_delete_exam_cascades_witness :
    deleteExamRoute store0 100 9 = some store0After ∧
    (store0After.evaluations.filter (fun x => x.exam == 100) = [] ∧
      store0After.submissions.filter (fun x => x.exam == 100) = [] ∧
      store0After.exams.filter (fun x => x.id == 100) = []) :=
  ⟨by decide, C8_delete_exam_cascades store0 100 9 store0After (by decide)⟩

/-- C10: `assignTeacherToCourse` is idempotent on the enrolled-course list:
an already-assigned course leaves the teacher unchanged, and running the
operation twice equals running it once. -/
theorem C10_assign_teacher_idempotent (t : Teacher) (c : Nat) :
    (c ∈ t.enrolledCourses → assignTeacherToCourse t c = t) ∧
    assignTeacherToCourse (assignTeacherToCourse t c) c = assignTeacherToCourse t c := by
  have hmem : ∀ s : Teacher, c ∈ s.enrolledCourses → assignTeacherToCourse s c = s := by
    intro s hs
    unfold assignTeacherToCourse
    rw [if_pos]
    rw [List.any_eq_true]
    exact ⟨c, hs, by simp⟩
  refine ⟨hmem t, ?_⟩
  by_cases h : c ∈ t.enrolledCourses
  · rw [hmem t h]
    exact hmem t h
  · have habs : assignTeacherToCourse t c =
        { t with enrolledCourses := t.enrolledCourses ++ [c] } := by
      unfold assignTeacherToCourse
      rw [if_neg]
      intro hc
      rw [List.any_eq_true] at hc
      obtain ⟨x, hx, hbeq⟩ := hc
      rw [beq_iff_eq] at hbeq
      exact h (hbeq ▸ hx)
    rw [habs]
    apply hmem
    simp

/-- Witness for C10 at a concrete input. -/
theorem C10_assign_teacher_idempotent_witness :
    assignTeacherToCourse ⟨[5]⟩ 5 = (⟨[5]⟩ : Teacher) ∧
    assignTeacherToCourse (assignTeacherToCourse ⟨[5]⟩ 7) 7 =
      assignTeacherToCourse ⟨[5]⟩ 7 :=
  ⟨(C10_assign_teacher_idempotent ⟨[5]⟩ 5).1 (by decide),
    (C10_assign_teacher_idempotent ⟨[5]⟩ 7).2⟩
